import Mathlib

/-!
Shallow embedding of the `ae4_worldmap_parser` decoder (`src/main.rs`).

The Rust program decodes a binary world-map file with nom combinators.
We model:
* a byte as `Fin 256` (Rust `u8`);
* `nom::number::complete::le_u32` as `le_u32` (fails with an `Eof`-kind
  error carrying the current input when fewer than 4 bytes remain);
* `nom::bytes::complete::take` as `take_bytes`;
* `nom::multi::many_m_n` as `many_m_n` (with nom's zero-consumption
  loop protection; an element failure after `min` elements ends the
  repetition with the elements accumulated so far);
* `u32 -> usize` conversion `try_into().unwrap()` as `try_into_usize`
  (64-bit target); a failed `unwrap` would be a Rust panic, modelled as
  the distinguished outcome `PError.panicked`.

Errors: the only error the Rust primitives raise is nom's
`ErrorKind::Eof` carrying the remaining input at the failing read —
this is what the specification calls `InsufficientData` (the offset is
the buffer length minus the length of the carried remaining input).
`PError.manyMN` models the `ErrorKind::ManyMN` error of `many_m_n`
(zero-consumption protection and the `min > max` check, which in nom
is a `Failure`; no call site of this program can trigger either).
-/

abbrev Byte := Fin 256

/-- Outcome of a failed parse, or of a panic (`unwrap` failure). -/
inductive PError where
  | eof (rest : List Byte)
  | manyMN (rest : List Byte)
  | panicked
deriving Repr, DecidableEq

/-- `IResult<&[u8], T>`: either an error or the remaining input and a value. -/
abbrev PResult (α : Type) : Type := Except PError (List Byte × α)

/-- The `?` operator on `IResult`: propagate errors, continue on success. -/
def pbind {α β : Type} (x : PResult α) (f : List Byte × α → PResult β) : PResult β :=
  match x with
  | .error e => .error e
  | .ok v => f v

/-- Whether a parse succeeded. -/
def pIsOk {α : Type} : PResult α → Bool
  | .ok _ => true
  | .error _ => false

/-- Whether the outcome is the modelled panic. -/
def pIsPanic {α : Type} : PResult α → Bool
  | .error .panicked => true
  | _ => false

/-- `nom::number::complete::le_u32`: 4 bytes, little endian; fails with an
`Eof` error carrying the whole current input when fewer than 4 bytes remain. -/
def le_u32 (input : List Byte) : PResult Nat :=
  match input with
  | b0 :: b1 :: b2 :: b3 :: rest =>
      .ok (rest, b0.val + 256 * b1.val + 65536 * b2.val + 16777216 * b3.val)
  | _ => .error (.eof input)

/-- `nom::bytes::complete::take count`: the next `count` bytes verbatim;
fails with an `Eof` error carrying the current input when fewer remain. -/
def take_bytes (count : Nat) (input : List Byte) : PResult (List Byte) :=
  if count ≤ input.length then .ok (input.drop count, input.take count)
  else .error (.eof input)

/-- `u32 -> usize` via `TryInto::try_into` on the 64-bit target: succeeds
exactly when the value fits in a `usize`. -/
def try_into_usize (n : Nat) : Option Nat :=
  if n < 2 ^ 64 then some n else none

/-- Loop of `nom::multi::many_m_n`, structurally recursive on the number of
iterations left (`max - count` in nom); `minR` is how many elements are still
required (`min - count` truncated at 0). On an element error: if no more
elements are required, return the elements accumulated so far with the input
positioned at the failed element; otherwise fail with `ManyMN`. A successful
element that consumed nothing fails with `ManyMN` (infinite-loop protection).
A panic propagates. -/
def many_loop {α : Type} (p : List Byte → PResult α) :
    Nat → Nat → List Byte → PResult (List α)
  | _, 0, input => .ok (input, [])
  | minR, maxC + 1, input =>
    match p input with
    | .ok (tail, value) =>
      if tail.length = input.length then .error (.manyMN input)
      else
        match many_loop p (minR - 1) maxC tail with
        | .ok (rest, l) => .ok (rest, value :: l)
        | .error e => .error e
    | .error .panicked => .error .panicked
    | .error _ => if minR = 0 then .ok (input, []) else .error (.manyMN input)

/-- `nom::multi::many_m_n min max p` (in nom the `min > max` failure is an
`Err::Failure`; every call site of this program passes `min = 0`, so the
collapse of failure onto `PError.manyMN` is unobservable). -/
def many_m_n {α : Type} (minC maxC : Nat) (p : List Byte → PResult α)
    (input : List Byte) : PResult (List α) :=
  if minC > maxC then .error (.manyMN input) else many_loop p minC maxC input

/-- `count.try_into().unwrap()` followed by the rest of the computation:
a failed `unwrap` is a Rust panic (the `panicked` outcome); on success the
continuation receives the converted value. -/
def unwrap_usize {β : Type} (n : Nat) (k : Nat → PResult β) : PResult β :=
  match try_into_usize n with
  | none => .error .panicked
  | some m => k m

/-- `struct StdString` of `src/main.rs`. -/
structure StdString where
  length : Nat
  data : List Byte
deriving Repr, DecidableEq

/-- `struct WorldChip` of `src/main.rs`. -/
structure WorldChip where
  header : Nat
  tile_index : Nat
  locked : Nat
  graphic : Nat
  strings_count : Nat
  name : StdString
  unused_string : StdString
deriving Repr, DecidableEq

/-- `struct WorldEventPage` of `src/main.rs`. -/
structure WorldEventPage where
  start : Nat
  event_type : Nat
  graphic : Nat
  world_number : Nat
  pass_without_clear : Nat
  play_after_clear : Nat
  on_game_clear : Nat
  appearance_condition_world : Nat
  appearance_condition_variable : Nat
  appearance_condition_constant : Nat
  appearance_condition_comparison_content : Nat
  appearance_condition_total_score : Nat
  variation_setting_present : Nat
  variation_variable : Nat
  variation_constant : Nat
  strings_count : Nat
  world_name : StdString
  start_stage : StdString
deriving Repr, DecidableEq

/-- `struct WorldEventBase` of `src/main.rs`. -/
structure WorldEventBase where
  header : Nat
  placement_x : Nat
  placement_y : Nat
  strings_count : Nat
  name : StdString
  pages_count : Nat
  pages : List WorldEventPage
deriving Repr, DecidableEq

/-- `struct WorldMapFile` of `src/main.rs`. -/
structure WorldMapFile where
  version : Nat
  settings_count : Nat
  horizontal_width : Nat
  vertical_width : Nat
  chunk_width : Nat
  chunk_pow : Nat
  initial_position_x : Nat
  initial_position_y : Nat
  background_index : Nat
  use_background : Nat
  strings_count : Nat
  name : StdString
  bg_path : StdString
  tiles_types_count : Nat
  world_chip_data : List WorldChip
  tiles_count : Nat
  map_chip_data : List Nat
  events_count : Nat
  event_data : List WorldEventBase
  events_pal_count : Nat
  event_template_data : List WorldEventBase
deriving Repr, DecidableEq

/-- `fn std_string` of `src/main.rs`. -/
def std_string (input : List Byte) : PResult StdString :=
  pbind (le_u32 input) fun (input, length) =>
  pbind (if length > 1 then take_bytes length input else take_bytes 0 input)
    fun (input, data) =>
  .ok (input, { length, data })

/-- `fn world_chip` of `src/main.rs`. -/
def world_chip (input : List Byte) : PResult WorldChip :=
  pbind (le_u32 input) fun (input, header) =>
  pbind (le_u32 input) fun (input, tile_index) =>
  pbind (le_u32 input) fun (input, locked) =>
  pbind (le_u32 input) fun (input, graphic) =>
  pbind (le_u32 input) fun (input, strings_count) =>
  pbind (std_string input) fun (input, name) =>
  pbind (std_string input) fun (input, unused_string) =>
  .ok (input, { header, tile_index, locked, graphic, strings_count,
                name, unused_string })

/-- `fn world_event_page` of `src/main.rs`. -/
def world_event_page (input : List Byte) : PResult WorldEventPage :=
  pbind (le_u32 input) fun (input, start) =>
  pbind (le_u32 input) fun (input, event_type) =>
  pbind (le_u32 input) fun (input, graphic) =>
  pbind (le_u32 input) fun (input, world_number) =>
  pbind (le_u32 input) fun (input, pass_without_clear) =>
  pbind (le_u32 input) fun (input, play_after_clear) =>
  pbind (le_u32 input) fun (input, on_game_clear) =>
  pbind (le_u32 input) fun (input, appearance_condition_world) =>
  pbind (le_u32 input) fun (input, appearance_condition_variable) =>
  pbind (le_u32 input) fun (input, appearance_condition_constant) =>
  pbind (le_u32 input) fun (input, appearance_condition_comparison_content) =>
  pbind (le_u32 input) fun (input, appearance_condition_total_score) =>
  pbind (le_u32 input) fun (input, variation_setting_present) =>
  pbind (le_u32 input) fun (input, variation_variable) =>
  pbind (le_u32 input) fun (input, variation_constant) =>
  pbind (le_u32 input) fun (input, strings_count) =>
  pbind (std_string input) fun (input, world_name) =>
  pbind (std_string input) fun (input, start_stage) =>
  .ok (input, { start, event_type, graphic, world_number,
                pass_without_clear, play_after_clear, on_game_clear,
                appearance_condition_world, appearance_condition_variable,
                appearance_condition_constant,
                appearance_condition_comparison_content,
                appearance_condition_total_score,
                variation_setting_present, variation_variable,
                variation_constant, strings_count,
                world_name, start_stage })

/-- `fn world_event_base` of `src/main.rs`; `pages_count.try_into().unwrap()`
is the `try_into_usize` match, with `none` (a failed `unwrap`) a panic. -/
def world_event_base (input : List Byte) : PResult WorldEventBase :=
  pbind (le_u32 input) fun (input, header) =>
  pbind (le_u32 input) fun (input, placement_x) =>
  pbind (le_u32 input) fun (input, placement_y) =>
  pbind (le_u32 input) fun (input, strings_count) =>
  pbind (std_string input) fun (input, name) =>
  pbind (le_u32 input) fun (input, pages_count) =>
  unwrap_usize pages_count fun maxC =>
  pbind (many_m_n 0 maxC world_event_page input) fun (input, pages) =>
  .ok (input, { header, placement_x, placement_y,
                strings_count, name, pages_count, pages })

/-- `fn world_map` of `src/main.rs`. Note the repeat bound of the two
event-record lists: `tiles_count.try_into().unwrap()`, not the locally read
`events_count` / `events_pal_count`. -/
def world_map (input : List Byte) : PResult WorldMapFile :=
  pbind (le_u32 input) fun (input, version) =>
  pbind (le_u32 input) fun (input, settings_count) =>
  pbind (le_u32 input) fun (input, horizontal_width) =>
  pbind (le_u32 input) fun (input, vertical_width) =>
  pbind (le_u32 input) fun (input, chunk_width) =>
  pbind (le_u32 input) fun (input, chunk_pow) =>
  pbind (le_u32 input) fun (input, initial_position_x) =>
  pbind (le_u32 input) fun (input, initial_position_y) =>
  pbind (le_u32 input) fun (input, background_index) =>
  pbind (le_u32 input) fun (input, use_background) =>
  pbind (le_u32 input) fun (input, strings_count) =>
  pbind (std_string input) fun (input, name) =>
  pbind (std_string input) fun (input, bg_path) =>
  pbind (le_u32 input) fun (input, tiles_types_count) =>
  unwrap_usize tiles_types_count fun maxChips =>
  pbind (many_m_n 0 maxChips world_chip input) fun (input, world_chip_data) =>
  pbind (le_u32 input) fun (input, tiles_count) =>
  unwrap_usize tiles_count fun maxTiles =>
  pbind (many_m_n 0 maxTiles le_u32 input) fun (input, map_chip_data) =>
  pbind (le_u32 input) fun (input, events_count) =>
  unwrap_usize tiles_count fun maxEvents =>
  pbind (many_m_n 0 maxEvents world_event_base input)
    fun (input, event_data) =>
  pbind (le_u32 input) fun (input, events_pal_count) =>
  unwrap_usize tiles_count fun maxTemplates =>
  pbind (many_m_n 0 maxTemplates world_event_base input)
    fun (input, event_template_data) =>
  .ok (input, { version, settings_count,
                horizontal_width, vertical_width,
                chunk_width, chunk_pow,
                initial_position_x, initial_position_y,
                background_index, use_background,
                strings_count, name, bg_path,
                tiles_types_count, world_chip_data,
                tiles_count, map_chip_data,
                events_count, event_data,
                events_pal_count, event_template_data })

/-!
## Serialization, modelled from the spec

The repository has no encoder ("no encoder exists or is specified",
spec §1); the spec's round-trip property (§8) speaks of a buffer "built
by concatenating fields in the declared order".  The following
definitions are that construction, following §6 ("File layout"): all
integers as 4 little-endian bytes, a StringField as its length then its
payload, lists element by element.
-/

/-- Modelled from the spec: a 4-byte little-endian unsigned integer (§6). -/
def encode_u32 (n : Nat) : List Byte :=
  [⟨n % 256, by omega⟩, ⟨n / 256 % 256, by omega⟩,
   ⟨n / 65536 % 256, by omega⟩, ⟨n / 16777216 % 256, by omega⟩]

/-- Modelled from the spec: a StringField as length then payload (§6). -/
def encode_string (s : StdString) : List Byte :=
  encode_u32 s.length ++ s.data

/-- Modelled from the spec: a Chip, fields in declared order (§6). -/
def encode_chip (c : WorldChip) : List Byte :=
  encode_u32 c.header ++ encode_u32 c.tile_index ++ encode_u32 c.locked ++
  encode_u32 c.graphic ++ encode_u32 c.strings_count ++
  encode_string c.name ++ encode_string c.unused_string

/-- Modelled from the spec: an EventPage, fields in declared order (§6). -/
def encode_page (p : WorldEventPage) : List Byte :=
  encode_u32 p.start ++ encode_u32 p.event_type ++ encode_u32 p.graphic ++
  encode_u32 p.world_number ++ encode_u32 p.pass_without_clear ++
  encode_u32 p.play_after_clear ++ encode_u32 p.on_game_clear ++
  encode_u32 p.appearance_condition_world ++
  encode_u32 p.appearance_condition_variable ++
  encode_u32 p.appearance_condition_constant ++
  encode_u32 p.appearance_condition_comparison_content ++
  encode_u32 p.appearance_condition_total_score ++
  encode_u32 p.variation_setting_present ++
  encode_u32 p.variation_variable ++ encode_u32 p.variation_constant ++
  encode_u32 p.strings_count ++
  encode_string p.world_name ++ encode_string p.start_stage

/-- Modelled from the spec: an EventRecord, fields in declared order (§6). -/
def encode_event (e : WorldEventBase) : List Byte :=
  encode_u32 e.header ++ encode_u32 e.placement_x ++ encode_u32 e.placement_y ++
  encode_u32 e.strings_count ++ encode_string e.name ++
  encode_u32 e.pages_count ++ (e.pages.map encode_page).flatten

/-- The 11 leading scalar fields of the WorldMap layout, in declared order. -/
def header_scalars (m : WorldMapFile) : List Nat :=
  [m.version, m.settings_count, m.horizontal_width, m.vertical_width,
   m.chunk_width, m.chunk_pow, m.initial_position_x, m.initial_position_y,
   m.background_index, m.use_background, m.strings_count]

/-- Modelled from the spec: a WorldMap buffer, fields in declared order (§6). -/
def encode_map (m : WorldMapFile) : List Byte :=
  ((header_scalars m).map encode_u32).flatten ++
  encode_string m.name ++ encode_string m.bg_path ++
  encode_u32 m.tiles_types_count ++ (m.world_chip_data.map encode_chip).flatten ++
  encode_u32 m.tiles_count ++ (m.map_chip_data.map encode_u32).flatten ++
  encode_u32 m.events_count ++ (m.event_data.map encode_event).flatten ++
  encode_u32 m.events_pal_count ++ (m.event_template_data.map encode_event).flatten

/-!
## Well-formed values

A value is well formed when it satisfies the layout's own invariants
(spec §3): every integer field fits in 32 bits, a StringField's payload
is empty when its declared length is 0 or 1 and has exactly `length`
bytes otherwise, and each repeated list has exactly the declared count
of elements (for the two event lists the count that the decoder
actually uses, `tilesCount`).
-/

/-- StringField invariant (spec §3). -/
abbrev WF_string (s : StdString) : Prop :=
  s.length < 2 ^ 32 ∧
  (s.length ≤ 1 → s.data = []) ∧
  (2 ≤ s.length → s.data.length = s.length)

/-- Chip invariant. -/
abbrev WF_chip (c : WorldChip) : Prop :=
  c.header < 2 ^ 32 ∧ c.tile_index < 2 ^ 32 ∧ c.locked < 2 ^ 32 ∧
  c.graphic < 2 ^ 32 ∧ c.strings_count < 2 ^ 32 ∧
  WF_string c.name ∧ WF_string c.unused_string

/-- EventPage invariant. -/
abbrev WF_page (p : WorldEventPage) : Prop :=
  p.start < 2 ^ 32 ∧ p.event_type < 2 ^ 32 ∧ p.graphic < 2 ^ 32 ∧
  p.world_number < 2 ^ 32 ∧ p.pass_without_clear < 2 ^ 32 ∧
  p.play_after_clear < 2 ^ 32 ∧ p.on_game_clear < 2 ^ 32 ∧
  p.appearance_condition_world < 2 ^ 32 ∧
  p.appearance_condition_variable < 2 ^ 32 ∧
  p.appearance_condition_constant < 2 ^ 32 ∧
  p.appearance_condition_comparison_content < 2 ^ 32 ∧
  p.appearance_condition_total_score < 2 ^ 32 ∧
  p.variation_setting_present < 2 ^ 32 ∧ p.variation_variable < 2 ^ 32 ∧
  p.variation_constant < 2 ^ 32 ∧ p.strings_count < 2 ^ 32 ∧
  WF_string p.world_name ∧ WF_string p.start_stage

/-- EventRecord invariant: `pages` has exactly `pages_count` elements. -/
abbrev WF_event (e : WorldEventBase) : Prop :=
  e.header < 2 ^ 32 ∧ e.placement_x < 2 ^ 32 ∧ e.placement_y < 2 ^ 32 ∧
  e.strings_count < 2 ^ 32 ∧ WF_string e.name ∧ e.pages_count < 2 ^ 32 ∧
  e.pages.length = e.pages_count ∧ ∀ p ∈ e.pages, WF_page p

/-- WorldMap invariant: each list has exactly the count of elements that
the decoder repeats it by (the two event lists: `tiles_count`, §9). -/
abbrev WF_map (m : WorldMapFile) : Prop :=
  (∀ n ∈ header_scalars m, n < 2 ^ 32) ∧
  WF_string m.name ∧ WF_string m.bg_path ∧
  m.tiles_types_count < 2 ^ 32 ∧
  m.world_chip_data.length = m.tiles_types_count ∧
  (∀ c ∈ m.world_chip_data, WF_chip c) ∧
  m.tiles_count < 2 ^ 32 ∧
  m.map_chip_data.length = m.tiles_count ∧
  (∀ n ∈ m.map_chip_data, n < 2 ^ 32) ∧
  m.events_count < 2 ^ 32 ∧
  m.event_data.length = m.tiles_count ∧
  (∀ e ∈ m.event_data, WF_event e) ∧
  m.events_pal_count < 2 ^ 32 ∧
  m.event_template_data.length = m.tiles_count ∧
  (∀ e ∈ m.event_template_data, WF_event e)

/-!
## Basic lemmas
-/

theorem pbind_ok {α β : Type} (v : List Byte × α) (f : List Byte × α → PResult β) :
    pbind (.ok v) f = f v := rfl

theorem pbind_error {α β : Type} (e : PError) (f : List Byte × α → PResult β) :
    pbind (.error e) f = .error e := rfl

/-- A forward-only parser: on success the remaining input is a suffix of the
input it was given. -/
def PConsuming {α : Type} (p : List Byte → PResult α) : Prop :=
  ∀ input rest a, p input = .ok (rest, a) → rest.IsSuffix input

/-- A parser that never produces the modelled panic outcome. -/
def NPanic {α : Type} (p : List Byte → PResult α) : Prop :=
  ∀ input e, p input = .error e → e ≠ .panicked

theorem pbind_suffix {α β : Type} {x : PResult α} {f : List Byte × α → PResult β}
    {input : List Byte}
    (hx : ∀ r v, x = .ok (r, v) → r.IsSuffix input)
    (hf : ∀ r v, r.IsSuffix input → ∀ rest b, f (r, v) = .ok (rest, b) →
      rest.IsSuffix input) :
    ∀ rest b, pbind x f = .ok (rest, b) → rest.IsSuffix input := by
  intro rest b h
  cases hx' : x with
  | error e => rw [hx', pbind_error] at h; cases h
  | ok v =>
    rw [hx', pbind_ok] at h
    exact hf v.1 v.2 (hx v.1 v.2 hx') rest b h

theorem np_pbind {α β : Type} {x : PResult α} {f : List Byte × α → PResult β}
    (hx : ∀ e, x = .error e → e ≠ .panicked)
    (hf : ∀ r v, x = .ok (r, v) → ∀ e, f (r, v) = .error e → e ≠ .panicked) :
    ∀ e, pbind x f = .error e → e ≠ .panicked := by
  intro e h
  cases hx' : x with
  | error e' => rw [hx', pbind_error] at h; cases h; exact hx _ hx'
  | ok v => rw [hx', pbind_ok] at h; exact hf v.1 v.2 hx' e h

theorem le_u32_nil : le_u32 [] = .error (.eof []) := rfl

theorem le_u32_suffix : PConsuming le_u32 := by
  intro input rest n h
  unfold le_u32 at h
  split at h
  · rename_i b0 b1 b2 b3 r
    cases h
    exact ⟨[b0, b1, b2, b3], rfl⟩
  · cases h

theorem le_u32_lt (input rest : List Byte) (n : Nat)
    (h : le_u32 input = .ok (rest, n)) : n < 2 ^ 32 := by
  unfold le_u32 at h
  split at h
  · rename_i b0 b1 b2 b3 r
    cases h
    have h0 := b0.isLt
    have h1 := b1.isLt
    have h2 := b2.isLt
    have h3 := b3.isLt
    omega
  · cases h

theorem le_u32_np : NPanic le_u32 := by
  intro input e h
  unfold le_u32 at h
  split at h
  · cases h
  · cases h; simp

theorem le_u32_encode (n : Nat) (r : List Byte) (h : n < 2 ^ 32) :
    le_u32 (encode_u32 n ++ r) = .ok (r, n) := by
  have harith : n % 256 + 256 * (n / 256 % 256) + 65536 * (n / 65536 % 256) +
      16777216 * (n / 16777216 % 256) = n := by omega
  simp only [encode_u32, List.cons_append, List.nil_append, le_u32]
  rw [harith]

theorem encode_u32_length (n : Nat) : (encode_u32 n).length = 4 := rfl

theorem take_bytes_suffix (count : Nat) : PConsuming (take_bytes count) := by
  intro input rest a h
  unfold take_bytes at h
  split at h
  · cases h; exact List.drop_suffix count input
  · cases h

theorem take_bytes_np (count : Nat) : NPanic (take_bytes count) := by
  intro input e h
  unfold take_bytes at h
  split at h
  · cases h
  · cases h; simp

theorem take_bytes_exact (l r : List Byte) :
    take_bytes l.length (l ++ r) = .ok (r, l) := by
  unfold take_bytes
  rw [if_pos (by simp)]
  rw [List.drop_left, List.take_left]

theorem try_into_usize_lt (n : Nat) (h : n < 2 ^ 32) :
    try_into_usize n = some n := by
  unfold try_into_usize
  rw [if_pos (by omega)]

/-!
## `many_m_n` lemmas (all call sites use `min = 0`)
-/

theorem many_m_n_zero {α : Type} (maxC : Nat) (p : List Byte → PResult α)
    (input : List Byte) :
    many_m_n 0 maxC p input = many_loop p 0 maxC input := by
  simp [many_m_n]

theorem many_loop_le {α : Type} (p : List Byte → PResult α) :
    ∀ (maxC minR : Nat) (input rest : List Byte) (l : List α),
      many_loop p minR maxC input = .ok (rest, l) → l.length ≤ maxC := by
  intro maxC
  induction maxC with
  | zero =>
    intro minR input rest l h
    unfold many_loop at h
    cases h
    simp
  | succ maxC ih =>
    intro minR input rest l h
    unfold many_loop at h
    cases hp : p input with
    | ok v =>
      obtain ⟨tail, value⟩ := v
      rw [hp] at h
      simp only at h
      split at h
      · cases h
      · cases hrec : many_loop p (minR - 1) maxC tail with
        | ok w =>
          obtain ⟨rest', l'⟩ := w
          rw [hrec] at h
          simp only at h
          cases h
          have := ih (minR - 1) tail _ _ hrec
          simp only [List.length_cons]
          omega
        | error e => rw [hrec] at h; simp only at h; cases h
    | error e =>
      rw [hp] at h
      cases e <;> simp only at h
      · split at h
        · cases h; simp
        · cases h
      · split at h
        · cases h; simp
        · cases h
      · cases h

theorem many_loop_suffix {α : Type} (p : List Byte → PResult α) (hp : PConsuming p) :
    ∀ (maxC minR : Nat) (input rest : List Byte) (l : List α),
      many_loop p minR maxC input = .ok (rest, l) → rest.IsSuffix input := by
  intro maxC
  induction maxC with
  | zero =>
    intro minR input rest l h
    unfold many_loop at h
    cases h
    exact List.suffix_refl _
  | succ maxC ih =>
    intro minR input rest l h
    unfold many_loop at h
    cases hp' : p input with
    | ok v =>
      obtain ⟨tail, value⟩ := v
      rw [hp'] at h
      simp only at h
      split at h
      · cases h
      · cases hrec : many_loop p (minR - 1) maxC tail with
        | ok w =>
          obtain ⟨rest', l'⟩ := w
          rw [hrec] at h
          simp only at h
          cases h
          exact (ih (minR - 1) tail _ _ hrec).trans (hp input tail value hp')
        | error e => rw [hrec] at h; simp only at h; cases h
    | error e =>
      rw [hp'] at h
      cases e <;> simp only at h
      · split at h
        · cases h; exact List.suffix_refl _
        · cases h
      · split at h
        · cases h; exact List.suffix_refl _
        · cases h
      · cases h

theorem many_loop_np {α : Type} (p : List Byte → PResult α) (hp : NPanic p) :
    ∀ (maxC minR : Nat) (input : List Byte) (e : PError),
      many_loop p minR maxC input = .error e → e ≠ .panicked := by
  intro maxC
  induction maxC with
  | zero =>
    intro minR input e h
    unfold many_loop at h
    cases h
  | succ maxC ih =>
    intro minR input e h
    unfold many_loop at h
    cases hp' : p input with
    | ok v =>
      obtain ⟨tail, value⟩ := v
      rw [hp'] at h
      simp only at h
      split at h
      · cases h; simp
      · cases hrec : many_loop p (minR - 1) maxC tail with
        | ok w => rw [hrec] at h; simp only at h; cases h
        | error e' =>
          rw [hrec] at h
          simp only at h
          cases h
          exact ih (minR - 1) tail e hrec
    | error e' =>
      rw [hp'] at h
      cases e' <;> simp only at h
      · split at h
        · cases h
        · cases h; simp
      · split at h
        · cases h
        · cases h; simp
      · cases h
        exact absurd rfl (hp input .panicked hp')

theorem many_loop_encode {α : Type} (p : List Byte → PResult α)
    (enc : α → List Byte) (P : α → Prop)
    (hround : ∀ x r, P x → p (enc x ++ r) = .ok (r, x))
    (hne : ∀ x, P x → enc x ≠ []) :
    ∀ (l : List α) (r : List Byte), (∀ x ∈ l, P x) →
      many_loop p 0 l.length ((l.map enc).flatten ++ r) = .ok (r, l) := by
  intro l
  induction l with
  | nil => intro r _; rfl
  | cons x xs ih =>
    intro r hall
    have hx : P x := hall x (by simp)
    have hlen : (enc x).length ≠ 0 := by
      simpa [List.length_eq_zero] using hne x hx
    simp only [List.map_cons, List.flatten_cons, List.append_assoc,
      List.length_cons]
    unfold many_loop
    rw [hround x _ hx]
    simp only
    rw [if_neg (by simp only [List.length_append]; omega)]
    rw [ih r (fun y hy => hall y (by simp [hy]))]

theorem many_loop_encode_trunc {α : Type} (p : List Byte → PResult α)
    (enc : α → List Byte) (P : α → Prop)
    (hround : ∀ x r, P x → p (enc x ++ r) = .ok (r, x))
    (hne : ∀ x, P x → enc x ≠ [])
    (hnil : p [] = .error (.eof [])) :
    ∀ (l : List α) (maxC : Nat), l.length ≤ maxC → (∀ x ∈ l, P x) →
      many_loop p 0 maxC ((l.map enc).flatten) = .ok ([], l) := by
  intro l
  induction l with
  | nil =>
    intro maxC _ _
    cases maxC with
    | zero => rfl
    | succ maxC =>
      unfold many_loop
      simp only [List.map_nil, List.flatten_nil]
      rw [hnil]
      rfl
  | cons x xs ih =>
    intro maxC hle hall
    have hx : P x := hall x (by simp)
    have hlen : (enc x).length ≠ 0 := by
      simpa [List.length_eq_zero] using hne x hx
    cases maxC with
    | zero => simp at hle
    | succ maxC =>
      simp only [List.map_cons, List.flatten_cons]
      unfold many_loop
      rw [hround x _ hx]
      simp only
      rw [if_neg (by simp only [List.length_append]; omega)]
      rw [ih maxC (by simp at hle; omega) (fun y hy => hall y (by simp [hy]))]

theorem many_m_n_encode {α : Type} (p : List Byte → PResult α)
    (enc : α → List Byte) (P : α → Prop)
    (hround : ∀ x r, P x → p (enc x ++ r) = .ok (r, x))
    (hne : ∀ x, P x → enc x ≠ [])
    (l : List α) (r : List Byte) (hall : ∀ x ∈ l, P x) :
    many_m_n 0 l.length p ((l.map enc).flatten ++ r) = .ok (r, l) := by
  rw [many_m_n_zero]
  exact many_loop_encode p enc P hround hne l r hall

theorem many_m_n_encode_trunc {α : Type} (p : List Byte → PResult α)
    (enc : α → List Byte) (P : α → Prop)
    (hround : ∀ x r, P x → p (enc x ++ r) = .ok (r, x))
    (hne : ∀ x, P x → enc x ≠ [])
    (hnil : p [] = .error (.eof []))
    (l : List α) (maxC : Nat) (hle : l.length ≤ maxC) (hall : ∀ x ∈ l, P x) :
    many_m_n 0 maxC p ((l.map enc).flatten) = .ok ([], l) := by
  rw [many_m_n_zero]
  exact many_loop_encode_trunc p enc P hround hne hnil l maxC hle hall

theorem many_m_n_le {α : Type} (maxC : Nat) (p : List Byte → PResult α)
    (input rest : List Byte) (l : List α)
    (h : many_m_n 0 maxC p input = .ok (rest, l)) : l.length ≤ maxC := by
  rw [many_m_n_zero] at h
  exact many_loop_le p maxC 0 input rest l h

theorem many_m_n_suffix {α : Type} (maxC : Nat) (p : List Byte → PResult α)
    (hp : PConsuming p) : PConsuming (many_m_n 0 maxC p) := by
  intro input rest l h
  rw [many_m_n_zero] at h
  exact many_loop_suffix p hp maxC 0 input rest l h

theorem many_m_n_np {α : Type} (maxC : Nat) (p : List Byte → PResult α)
    (hp : NPanic p) : NPanic (many_m_n 0 maxC p) := by
  intro input e h
  rw [many_m_n_zero] at h
  exact many_loop_np p hp maxC 0 input e h

/-- An element failure (other than a panic) at the very first element ends the
`min = 0` repetition at once with the empty list and the input unmoved. -/
theorem many_m_n_swallow {α : Type} (maxC : Nat) (p : List Byte → PResult α)
    (input : List Byte) (e : PError) (hp : p input = .error e)
    (hnp : e ≠ .panicked) :
    many_m_n 0 maxC p input = .ok (input, []) := by
  rw [many_m_n_zero]
  cases maxC with
  | zero => rfl
  | succ maxC =>
    unfold many_loop
    rw [hp]
    cases e with
    | eof r => rfl
    | manyMN r => rfl
    | panicked => exact absurd rfl hnp

/-- The cons-step of a successful `min = 0` repetition: a first element that
succeeds and consumes at least one byte prepends its value to the repetition
on the remaining input with one fewer allowed iteration. -/
theorem many_m_n_cons {α : Type} (maxC : Nat) (p : List Byte → PResult α)
    (input tail : List Byte) (value : α) (hp : p input = .ok (tail, value))
    (hlt : tail.length < input.length) :
    many_m_n 0 (maxC + 1) p input =
      pbind (many_m_n 0 maxC p tail) fun (rest, l) => .ok (rest, value :: l) := by
  rw [many_m_n_zero, many_m_n_zero]
  have hne : tail.length ≠ input.length := by omega
  cases hres : many_loop p 0 maxC tail with
  | ok w =>
    obtain ⟨r, l⟩ := w
    rw [pbind_ok]
    unfold many_loop
    rw [hp]
    simp only [Nat.zero_sub, hres]
    rw [if_neg hne]
  | error e =>
    rw [pbind_error]
    unfold many_loop
    rw [hp]
    simp only [Nat.zero_sub, hres]
    rw [if_neg hne]

/-!
## Step combinators and inversion
-/

theorem pbind_suffix_step {α β : Type} {p : List Byte → PResult α}
    (hp : PConsuming p) {input root : List Byte} (hroot : input.IsSuffix root)
    {f : List Byte × α → PResult β}
    (hf : ∀ r v, r.IsSuffix root → ∀ rest b, f (r, v) = .ok (rest, b) →
      rest.IsSuffix root) :
    ∀ rest b, pbind (p input) f = .ok (rest, b) → rest.IsSuffix root :=
  pbind_suffix (fun r v h => (hp input r v h).trans hroot) hf

theorem np_pbind_step {α β : Type} {p : List Byte → PResult α} (hp : NPanic p)
    {input : List Byte} {f : List Byte × α → PResult β}
    (hf : ∀ r v, p input = .ok (r, v) → ∀ e, f (r, v) = .error e →
      e ≠ .panicked) :
    ∀ e, pbind (p input) f = .error e → e ≠ .panicked :=
  np_pbind (hp input) hf

theorem pbind_ok_inv {α β : Type} {x : PResult α} {f : List Byte × α → PResult β}
    {rest : List Byte} {b : β} (h : pbind x f = .ok (rest, b)) :
    ∃ r v, x = .ok (r, v) ∧ f (r, v) = .ok (rest, b) := by
  cases x with
  | error e => rw [pbind_error] at h; cases h
  | ok v =>
    obtain ⟨r, a⟩ := v
    rw [pbind_ok] at h
    exact ⟨r, a, rfl, h⟩

theorem try_into_usize_inv {n k : Nat} (h : try_into_usize n = some k) :
    k = n := by
  unfold try_into_usize at h
  split at h
  · cases h; rfl
  · cases h

theorem unwrap_usize_lt {β : Type} (n : Nat) (k : Nat → PResult β)
    (h : n < 2 ^ 32) : unwrap_usize n k = k n := by
  unfold unwrap_usize
  rw [try_into_usize_lt n h]

theorem unwrap_usize_ok_inv {β : Type} {n : Nat} {k : Nat → PResult β}
    {y : List Byte × β} (h : unwrap_usize n k = .ok y) : k n = .ok y := by
  unfold unwrap_usize at h
  rcases ht : try_into_usize n with _ | m <;> rw [ht] at h
  · cases h
  · have hm : m = n := try_into_usize_inv ht
    subst hm
    exact h

theorem unwrap_usize_error_inv {β : Type} {n : Nat} {k : Nat → PResult β}
    {e : PError} (hn : n < 2 ^ 32) (h : unwrap_usize n k = .error e) :
    k n = .error e := by
  rw [unwrap_usize_lt n k hn] at h
  exact h

/-!
## StringField decoder lemmas
-/

theorem take_bytes_len (n : Nat) (l r : List Byte) (h : l.length = n) :
    take_bytes n (l ++ r) = .ok (r, l) := by
  subst h
  exact take_bytes_exact l r

theorem encode_u32_ne (n : Nat) : encode_u32 n ≠ [] := by
  simp [encode_u32]

theorem encode_string_ne (s : StdString) : encode_string s ≠ [] := by
  simp [encode_string, encode_u32]

theorem std_string_nil : std_string [] = .error (.eof []) := rfl

theorem std_string_encode (s : StdString) (hs : WF_string s) (r : List Byte) :
    std_string (encode_string s ++ r) = .ok (r, s) := by
  obtain ⟨hlt, hle, hge⟩ := hs
  by_cases h : s.length > 1
  · have hd : s.data.length = s.length := hge (by omega)
    simp only [std_string, encode_string, List.append_assoc,
      le_u32_encode s.length (s.data ++ r) hlt, pbind_ok, if_pos h,
      take_bytes_len s.length s.data r hd]
  · have hd : s.data = [] := hle (by omega)
    have h0 : take_bytes 0 ([] ++ r) = .ok (r, []) := by simp [take_bytes]
    simp only [std_string, encode_string, hd, List.append_assoc,
      le_u32_encode s.length ([] ++ r) hlt, pbind_ok, if_neg h, h0]
    rw [← hd]

theorem std_string_suffix : PConsuming std_string := by
  intro input rest a h
  refine pbind_suffix_step le_u32_suffix (List.suffix_refl input) ?_ rest a h
  intro r v hr rest a h
  revert h
  refine pbind_suffix ?_ ?_ rest a
  · intro r' v' h'
    split at h'
    · exact (take_bytes_suffix v r r' v' h').trans hr
    · exact (take_bytes_suffix 0 r r' v' h').trans hr
  · intro r' v' hr' rest' b' hb'
    cases hb'
    exact hr'

theorem std_string_np : NPanic std_string := by
  intro input e h
  revert h
  refine np_pbind_step le_u32_np ?_ e
  intro r v _ e h
  revert h
  refine np_pbind ?_ ?_ e
  · intro e' h'
    split at h'
    · exact take_bytes_np v r e' h'
    · exact take_bytes_np 0 r e' h'
  · intro r' v' _ e' h'
    cases h'

/-!
## Chip and EventPage decoder lemmas
-/

theorem encode_chip_ne (c : WorldChip) : encode_chip c ≠ [] := by
  simp [encode_chip, encode_u32]

theorem encode_page_ne (p : WorldEventPage) : encode_page p ≠ [] := by
  simp [encode_page, encode_u32]

theorem encode_event_ne (e : WorldEventBase) : encode_event e ≠ [] := by
  simp [encode_event, encode_u32]

theorem world_chip_nil : world_chip [] = .error (.eof []) := rfl

theorem world_event_page_nil : world_event_page [] = .error (.eof []) := rfl

theorem world_event_base_nil : world_event_base [] = .error (.eof []) := rfl

theorem world_chip_encode (c : WorldChip) (hc : WF_chip c) (r : List Byte) :
    world_chip (encode_chip c ++ r) = .ok (r, c) := by
  obtain ⟨h1, h2, h3, h4, h5, hn, hu⟩ := hc
  simp only [world_chip, encode_chip, List.append_assoc, le_u32_encode,
    std_string_encode c.name hn, std_string_encode c.unused_string hu,
    pbind_ok, h1, h2, h3, h4, h5]

theorem world_event_page_encode (p : WorldEventPage) (hp : WF_page p)
    (r : List Byte) : world_event_page (encode_page p ++ r) = .ok (r, p) := by
  obtain ⟨h1, h2, h3, h4, h5, h6, h7, h8, h9, h10, h11, h12, h13, h14, h15,
    h16, hw, hs⟩ := hp
  simp only [world_event_page, encode_page, List.append_assoc, le_u32_encode,
    std_string_encode p.world_name hw, std_string_encode p.start_stage hs,
    pbind_ok, h1, h2, h3, h4, h5, h6, h7, h8, h9, h10,
    h11, h12, h13, h14, h15, h16]

theorem world_chip_suffix : PConsuming world_chip := by
  intro input rest a h
  refine pbind_suffix_step le_u32_suffix (List.suffix_refl input) ?_ rest a h
  intro r1 v1 hr1 rest a h
  refine pbind_suffix_step le_u32_suffix hr1 ?_ rest a h
  intro r2 v2 hr2 rest a h
  refine pbind_suffix_step le_u32_suffix hr2 ?_ rest a h
  intro r3 v3 hr3 rest a h
  refine pbind_suffix_step le_u32_suffix hr3 ?_ rest a h
  intro r4 v4 hr4 rest a h
  refine pbind_suffix_step le_u32_suffix hr4 ?_ rest a h
  intro r5 v5 hr5 rest a h
  refine pbind_suffix_step std_string_suffix hr5 ?_ rest a h
  intro r6 v6 hr6 rest a h
  refine pbind_suffix_step std_string_suffix hr6 ?_ rest a h
  intro r7 v7 hr7 rest a h
  cases h
  exact hr7

theorem world_event_page_suffix : PConsuming world_event_page := by
  intro input rest a h
  refine pbind_suffix_step le_u32_suffix (List.suffix_refl input) ?_ rest a h
  intro r1 v1 hr1 rest a h
  refine pbind_suffix_step le_u32_suffix hr1 ?_ rest a h
  intro r2 v2 hr2 rest a h
  refine pbind_suffix_step le_u32_suffix hr2 ?_ rest a h
  intro r3 v3 hr3 rest a h
  refine pbind_suffix_step le_u32_suffix hr3 ?_ rest a h
  intro r4 v4 hr4 rest a h
  refine pbind_suffix_step le_u32_suffix hr4 ?_ rest a h
  intro r5 v5 hr5 rest a h
  refine pbind_suffix_step le_u32_suffix hr5 ?_ rest a h
  intro r6 v6 hr6 rest a h
  refine pbind_suffix_step le_u32_suffix hr6 ?_ rest a h
  intro r7 v7 hr7 rest a h
  refine pbind_suffix_step le_u32_suffix hr7 ?_ rest a h
  intro r8 v8 hr8 rest a h
  refine pbind_suffix_step le_u32_suffix hr8 ?_ rest a h
  intro r9 v9 hr9 rest a h
  refine pbind_suffix_step le_u32_suffix hr9 ?_ rest a h
  intro r10 v10 hr10 rest a h
  refine pbind_suffix_step le_u32_suffix hr10 ?_ rest a h
  intro r11 v11 hr11 rest a h
  refine pbind_suffix_step le_u32_suffix hr11 ?_ rest a h
  intro r12 v12 hr12 rest a h
  refine pbind_suffix_step le_u32_suffix hr12 ?_ rest a h
  intro r13 v13 hr13 rest a h
  refine pbind_suffix_step le_u32_suffix hr13 ?_ rest a h
  intro r14 v14 hr14 rest a h
  refine pbind_suffix_step le_u32_suffix hr14 ?_ rest a h
  intro r15 v15 hr15 rest a h
  refine pbind_suffix_step le_u32_suffix hr15 ?_ rest a h
  intro r16 v16 hr16 rest a h
  refine pbind_suffix_step std_string_suffix hr16 ?_ rest a h
  intro r17 v17 hr17 rest a h
  refine pbind_suffix_step std_string_suffix hr17 ?_ rest a h
  intro r18 v18 hr18 rest a h
  cases h
  exact hr18

theorem world_chip_np : NPanic world_chip := by
  intro input
  refine np_pbind_step le_u32_np ?_
  intro r1 v1 _
  refine np_pbind_step le_u32_np ?_
  intro r2 v2 _
  refine np_pbind_step le_u32_np ?_
  intro r3 v3 _
  refine np_pbind_step le_u32_np ?_
  intro r4 v4 _
  refine np_pbind_step le_u32_np ?_
  intro r5 v5 _
  refine np_pbind_step std_string_np ?_
  intro r6 v6 _
  refine np_pbind_step std_string_np ?_
  intro r7 v7 _ e h
  cases h

theorem world_event_page_np : NPanic world_event_page := by
  intro input
  refine np_pbind_step le_u32_np ?_
  intro r1 v1 _
  refine np_pbind_step le_u32_np ?_
  intro r2 v2 _
  refine np_pbind_step le_u32_np ?_
  intro r3 v3 _
  refine np_pbind_step le_u32_np ?_
  intro r4 v4 _
  refine np_pbind_step le_u32_np ?_
  intro r5 v5 _
  refine np_pbind_step le_u32_np ?_
  intro r6 v6 _
  refine np_pbind_step le_u32_np ?_
  intro r7 v7 _
  refine np_pbind_step le_u32_np ?_
  intro r8 v8 _
  refine np_pbind_step le_u32_np ?_
  intro r9 v9 _
  refine np_pbind_step le_u32_np ?_
  intro r10 v10 _
  refine np_pbind_step le_u32_np ?_
  intro r11 v11 _
  refine np_pbind_step le_u32_np ?_
  intro r12 v12 _
  refine np_pbind_step le_u32_np ?_
  intro r13 v13 _
  refine np_pbind_step le_u32_np ?_
  intro r14 v14 _
  refine np_pbind_step le_u32_np ?_
  intro r15 v15 _
  refine np_pbind_step le_u32_np ?_
  intro r16 v16 _
  refine np_pbind_step std_string_np ?_
  intro r17 v17 _
  refine np_pbind_step std_string_np ?_
  intro r18 v18 _ e h
  cases h

/-!
## EventRecord decoder lemmas
-/

theorem world_event_base_encode (e : WorldEventBase) (he : WF_event e)
    (r : List Byte) : world_event_base (encode_event e ++ r) = .ok (r, e) := by
  obtain ⟨h1, h2, h3, h4, hn, h5, hlen, hpages⟩ := he
  have hm : ∀ r' : List Byte,
      many_m_n 0 e.pages_count world_event_page
        ((e.pages.map encode_page).flatten ++ r') = .ok (r', e.pages) := by
    intro r'
    rw [← hlen]
    exact many_m_n_encode world_event_page encode_page WF_page
      (fun x r'' hx => world_event_page_encode x hx r'')
      (fun x _ => encode_page_ne x) e.pages r' hpages
  simp only [world_event_base, encode_event, List.append_assoc, le_u32_encode,
    std_string_encode e.name hn, pbind_ok, h1, h2, h3, h4, h5,
    unwrap_usize_lt, hm]

theorem world_event_base_suffix : PConsuming world_event_base := by
  intro input rest a h
  refine pbind_suffix_step le_u32_suffix (List.suffix_refl input) ?_ rest a h
  intro r1 v1 hr1 rest a h
  refine pbind_suffix_step le_u32_suffix hr1 ?_ rest a h
  intro r2 v2 hr2 rest a h
  refine pbind_suffix_step le_u32_suffix hr2 ?_ rest a h
  intro r3 v3 hr3 rest a h
  refine pbind_suffix_step le_u32_suffix hr3 ?_ rest a h
  intro r4 v4 hr4 rest a h
  refine pbind_suffix_step std_string_suffix hr4 ?_ rest a h
  intro r5 v5 hr5 rest a h
  refine pbind_suffix_step le_u32_suffix hr5 ?_ rest a h
  intro r6 v6 hr6 rest a h
  refine pbind_suffix_step
    (many_m_n_suffix v6 world_event_page world_event_page_suffix) hr6 ?_
    rest a (unwrap_usize_ok_inv h)
  intro r7 v7 hr7 rest a h
  cases h
  exact hr7

theorem world_event_base_np : NPanic world_event_base := by
  intro input
  refine np_pbind_step le_u32_np ?_
  intro r1 v1 _
  refine np_pbind_step le_u32_np ?_
  intro r2 v2 _
  refine np_pbind_step le_u32_np ?_
  intro r3 v3 _
  refine np_pbind_step le_u32_np ?_
  intro r4 v4 _
  refine np_pbind_step std_string_np ?_
  intro r5 v5 _
  refine np_pbind_step le_u32_np ?_
  intro r6 v6 h6
  have hv6 : v6 < 2 ^ 32 := le_u32_lt r5 r6 v6 h6
  intro e h
  have h' := unwrap_usize_error_inv hv6 h
  revert h'
  refine np_pbind_step
    (many_m_n_np v6 world_event_page world_event_page_np) ?_ e
  intro r7 v7 _ e' h'
  cases h'

theorem world_event_base_pages_le (input rest : List Byte) (e : WorldEventBase)
    (h : world_event_base input = .ok (rest, e)) :
    e.pages.length ≤ e.pages_count := by
  obtain ⟨r1, v1, h1, h⟩ := pbind_ok_inv h
  obtain ⟨r2, v2, h2, h⟩ := pbind_ok_inv h
  obtain ⟨r3, v3, h3, h⟩ := pbind_ok_inv h
  obtain ⟨r4, v4, h4, h⟩ := pbind_ok_inv h
  obtain ⟨r5, v5, h5, h⟩ := pbind_ok_inv h
  obtain ⟨r6, v6, h6, h⟩ := pbind_ok_inv h
  obtain ⟨r7, v7, h7, h⟩ := pbind_ok_inv (unwrap_usize_ok_inv h)
  cases h
  exact many_m_n_le v6 world_event_page r6 _ _ h7

/-!
## WorldMap decoder lemmas
-/

theorem world_map_nil : world_map [] = .error (.eof []) := rfl

theorem world_map_encode (m : WorldMapFile) (hm : WF_map m) (r : List Byte) :
    world_map (encode_map m ++ r) = .ok (r, m) := by
  obtain ⟨hsc, hn, hb, httc, hclen, hcall, htc, hmlen, hmall, hec, helen,
    heall, hpc, htlen, htall⟩ := hm
  have h1 : m.version < 2 ^ 32 := hsc _ (by simp [header_scalars])
  have h2 : m.settings_count < 2 ^ 32 := hsc _ (by simp [header_scalars])
  have h3 : m.horizontal_width < 2 ^ 32 := hsc _ (by simp [header_scalars])
  have h4 : m.vertical_width < 2 ^ 32 := hsc _ (by simp [header_scalars])
  have h5 : m.chunk_width < 2 ^ 32 := hsc _ (by simp [header_scalars])
  have h6 : m.chunk_pow < 2 ^ 32 := hsc _ (by simp [header_scalars])
  have h7 : m.initial_position_x < 2 ^ 32 := hsc _ (by simp [header_scalars])
  have h8 : m.initial_position_y < 2 ^ 32 := hsc _ (by simp [header_scalars])
  have h9 : m.background_index < 2 ^ 32 := hsc _ (by simp [header_scalars])
  have h10 : m.use_background < 2 ^ 32 := hsc _ (by simp [header_scalars])
  have h11 : m.strings_count < 2 ^ 32 := hsc _ (by simp [header_scalars])
  have hchips : ∀ r' : List Byte, many_m_n 0 m.tiles_types_count world_chip
      ((m.world_chip_data.map encode_chip).flatten ++ r') =
      .ok (r', m.world_chip_data) := by
    intro r'
    rw [← hclen]
    exact many_m_n_encode world_chip encode_chip WF_chip
      (fun x rr hx => world_chip_encode x hx rr) (fun x _ => encode_chip_ne x)
      m.world_chip_data r' hcall
  have htiles : ∀ r' : List Byte, many_m_n 0 m.tiles_count le_u32
      ((m.map_chip_data.map encode_u32).flatten ++ r') =
      .ok (r', m.map_chip_data) := by
    intro r'
    rw [← hmlen]
    exact many_m_n_encode le_u32 encode_u32 (fun n => n < 2 ^ 32)
      (fun x rr hx => le_u32_encode x rr hx) (fun x _ => encode_u32_ne x)
      m.map_chip_data r' hmall
  have hevents : ∀ r' : List Byte, many_m_n 0 m.tiles_count world_event_base
      ((m.event_data.map encode_event).flatten ++ r') =
      .ok (r', m.event_data) := by
    intro r'
    rw [← helen]
    exact many_m_n_encode world_event_base encode_event WF_event
      (fun x rr hx => world_event_base_encode x hx rr)
      (fun x _ => encode_event_ne x) m.event_data r' heall
  have htemplates : ∀ r' : List Byte, many_m_n 0 m.tiles_count world_event_base
      ((m.event_template_data.map encode_event).flatten ++ r') =
      .ok (r', m.event_template_data) := by
    intro r'
    rw [← htlen]
    exact many_m_n_encode world_event_base encode_event WF_event
      (fun x rr hx => world_event_base_encode x hx rr)
      (fun x _ => encode_event_ne x) m.event_template_data r' htall
  simp only [world_map, encode_map, header_scalars, List.map_cons,
    List.map_nil, List.flatten_cons, List.flatten_nil, List.append_assoc,
    List.nil_append, le_u32_encode, std_string_encode m.name hn,
    std_string_encode m.bg_path hb, unwrap_usize_lt, pbind_ok,
    h1, h2, h3, h4, h5, h6, h7, h8, h9, h10, h11, httc, htc, hec, hpc,
    hchips, htiles, hevents, htemplates]

theorem world_map_suffix : PConsuming world_map := by
  intro input rest a h
  refine pbind_suffix_step le_u32_suffix (List.suffix_refl input) ?_ rest a h
  intro r1 v1 hr1 rest a h
  refine pbind_suffix_step le_u32_suffix hr1 ?_ rest a h
  intro r2 v2 hr2 rest a h
  refine pbind_suffix_step le_u32_suffix hr2 ?_ rest a h
  intro r3 v3 hr3 rest a h
  refine pbind_suffix_step le_u32_suffix hr3 ?_ rest a h
  intro r4 v4 hr4 rest a h
  refine pbind_suffix_step le_u32_suffix hr4 ?_ rest a h
  intro r5 v5 hr5 rest a h
  refine pbind_suffix_step le_u32_suffix hr5 ?_ rest a h
  intro r6 v6 hr6 rest a h
  refine pbind_suffix_step le_u32_suffix hr6 ?_ rest a h
  intro r7 v7 hr7 rest a h
  refine pbind_suffix_step le_u32_suffix hr7 ?_ rest a h
  intro r8 v8 hr8 rest a h
  refine pbind_suffix_step le_u32_suffix hr8 ?_ rest a h
  intro r9 v9 hr9 rest a h
  refine pbind_suffix_step le_u32_suffix hr9 ?_ rest a h
  intro r10 v10 hr10 rest a h
  refine pbind_suffix_step le_u32_suffix hr10 ?_ rest a h
  intro r11 v11 hr11 rest a h
  refine pbind_suffix_step std_string_suffix hr11 ?_ rest a h
  intro r12 v12 hr12 rest a h
  refine pbind_suffix_step std_string_suffix hr12 ?_ rest a h
  intro r13 v13 hr13 rest a h
  refine pbind_suffix_step le_u32_suffix hr13 ?_ rest a h
  intro r14 v14 hr14 rest a h
  refine pbind_suffix_step (many_m_n_suffix v14 world_chip world_chip_suffix)
    hr14 ?_ rest a (unwrap_usize_ok_inv h)
  intro r15 v15 hr15 rest a h
  refine pbind_suffix_step le_u32_suffix hr15 ?_ rest a h
  intro r16 v16 hr16 rest a h
  refine pbind_suffix_step (many_m_n_suffix v16 le_u32 le_u32_suffix)
    hr16 ?_ rest a (unwrap_usize_ok_inv h)
  intro r17 v17 hr17 rest a h
  refine pbind_suffix_step le_u32_suffix hr17 ?_ rest a h
  intro r18 v18 hr18 rest a h
  refine pbind_suffix_step
    (many_m_n_suffix v16 world_event_base world_event_base_suffix)
    hr18 ?_ rest a (unwrap_usize_ok_inv h)
  intro r19 v19 hr19 rest a h
  refine pbind_suffix_step le_u32_suffix hr19 ?_ rest a h
  intro r20 v20 hr20 rest a h
  refine pbind_suffix_step
    (many_m_n_suffix v16 world_event_base world_event_base_suffix)
    hr20 ?_ rest a (unwrap_usize_ok_inv h)
  intro r21 v21 hr21 rest a h
  cases h
  exact hr21

theorem world_map_np : NPanic world_map := by
  intro input
  refine np_pbind_step le_u32_np ?_
  intro r1 v1 _
  refine np_pbind_step le_u32_np ?_
  intro r2 v2 _
  refine np_pbind_step le_u32_np ?_
  intro r3 v3 _
  refine np_pbind_step le_u32_np ?_
  intro r4 v4 _
  refine np_pbind_step le_u32_np ?_
  intro r5 v5 _
  refine np_pbind_step le_u32_np ?_
  intro r6 v6 _
  refine np_pbind_step le_u32_np ?_
  intro r7 v7 _
  refine np_pbind_step le_u32_np ?_
  intro r8 v8 _
  refine np_pbind_step le_u32_np ?_
  intro r9 v9 _
  refine np_pbind_step le_u32_np ?_
  intro r10 v10 _
  refine np_pbind_step le_u32_np ?_
  intro r11 v11 _
  refine np_pbind_step std_string_np ?_
  intro r12 v12 _
  refine np_pbind_step std_string_np ?_
  intro r13 v13 _
  refine np_pbind_step le_u32_np ?_
  intro r14 v14 h14
  have hv14 : v14 < 2 ^ 32 := le_u32_lt r13 r14 v14 h14
  intro e h
  have h' := unwrap_usize_error_inv hv14 h
  revert h'
  refine np_pbind_step (many_m_n_np v14 world_chip world_chip_np) ?_ e
  intro r15 v15 _
  refine np_pbind_step le_u32_np ?_
  intro r16 v16 h16
  have hv16 : v16 < 2 ^ 32 := le_u32_lt r15 r16 v16 h16
  intro e' h
  have h' := unwrap_usize_error_inv hv16 h
  revert h'
  refine np_pbind_step (many_m_n_np v16 le_u32 le_u32_np) ?_ e'
  intro r17 v17 _
  refine np_pbind_step le_u32_np ?_
  intro r18 v18 _
  intro e'' h
  have h' := unwrap_usize_error_inv hv16 h
  revert h'
  refine np_pbind_step
    (many_m_n_np v16 world_event_base world_event_base_np) ?_ e''
  intro r19 v19 _
  refine np_pbind_step le_u32_np ?_
  intro r20 v20 _
  intro e3 h
  have h' := unwrap_usize_error_inv hv16 h
  revert h'
  refine np_pbind_step
    (many_m_n_np v16 world_event_base world_event_base_np) ?_ e3
  intro r21 v21 _ e4 h4
  cases h4

theorem world_map_bounds (input rest : List Byte) (m : WorldMapFile)
    (h : world_map input = .ok (rest, m)) :
    m.world_chip_data.length ≤ m.tiles_types_count ∧
    m.map_chip_data.length ≤ m.tiles_count ∧
    m.event_data.length ≤ m.tiles_count ∧
    m.event_template_data.length ≤ m.tiles_count := by
  obtain ⟨r1, v1, h1, h⟩ := pbind_ok_inv h
  obtain ⟨r2, v2, h2, h⟩ := pbind_ok_inv h
  obtain ⟨r3, v3, h3, h⟩ := pbind_ok_inv h
  obtain ⟨r4, v4, h4, h⟩ := pbind_ok_inv h
  obtain ⟨r5, v5, h5, h⟩ := pbind_ok_inv h
  obtain ⟨r6, v6, h6, h⟩ := pbind_ok_inv h
  obtain ⟨r7, v7, h7, h⟩ := pbind_ok_inv h
  obtain ⟨r8, v8, h8, h⟩ := pbind_ok_inv h
  obtain ⟨r9, v9, h9, h⟩ := pbind_ok_inv h
  obtain ⟨r10, v10, h10, h⟩ := pbind_ok_inv h
  obtain ⟨r11, v11, h11, h⟩ := pbind_ok_inv h
  obtain ⟨r12, v12, h12, h⟩ := pbind_ok_inv h
  obtain ⟨r13, v13, h13, h⟩ := pbind_ok_inv h
  obtain ⟨r14, v14, h14, h⟩ := pbind_ok_inv h
  obtain ⟨r15, v15, h15, h⟩ := pbind_ok_inv (unwrap_usize_ok_inv h)
  obtain ⟨r16, v16, h16, h⟩ := pbind_ok_inv h
  obtain ⟨r17, v17, h17, h⟩ := pbind_ok_inv (unwrap_usize_ok_inv h)
  obtain ⟨r18, v18, h18, h⟩ := pbind_ok_inv h
  obtain ⟨r19, v19, h19, h⟩ := pbind_ok_inv (unwrap_usize_ok_inv h)
  obtain ⟨r20, v20, h20, h⟩ := pbind_ok_inv h
  obtain ⟨r21, v21, h21, h⟩ := pbind_ok_inv (unwrap_usize_ok_inv h)
  cases h
  exact ⟨many_m_n_le v14 world_chip r14 _ _ h15,
         many_m_n_le v16 le_u32 r16 _ _ h17,
         many_m_n_le v16 world_event_base r18 _ _ h19,
         many_m_n_le v16 world_event_base r20 _ _ h21⟩

instance pResult_decEq {α : Type} [DecidableEq α] : DecidableEq (PResult α) :=
  fun x y =>
    match x, y with
    | .error e1, .error e2 =>
      if h : e1 = e2 then isTrue (by rw [h])
      else isFalse (by intro hc; cases hc; exact h rfl)
    | .ok v1, .ok v2 =>
      if h : v1 = v2 then isTrue (by rw [h])
      else isFalse (by intro hc; cases hc; exact h rfl)
    | .error _, .ok _ => isFalse (by intro hc; cases hc)
    | .ok _, .error _ => isFalse (by intro hc; cases hc)

instance WF_string_dec : DecidablePred WF_string := fun _ => inferInstance

instance WF_chip_dec : DecidablePred WF_chip := fun _ => inferInstance

instance WF_page_dec : DecidablePred WF_page := fun _ => inferInstance

instance WF_event_dec : DecidablePred WF_event := fun _ => inferInstance

instance WF_map_dec : DecidablePred WF_map := fun _ => inferInstance

/-!
## Concrete demonstration values
-/

/-- The empty StringField: declared length 0, no payload. -/
def sEmpty : StdString := { length := 0, data := [] }

/-- An EventRecord with no pages (24 encoded bytes). -/
def evDemo : WorldEventBase :=
  { header := 1, placement_x := 2, placement_y := 3, strings_count := 1,
    name := sEmpty, pages_count := 0, pages := [] }

/-- A well-formed WorldMap with `tiles_count = 1` but `events_count = 0` and
`events_pal_count = 0`; its buffer `encode_map mapDemo` is 120 bytes:
offsets 0..44 the 11 scalars, 44..52 the two empty strings, 52..56
tilesTypesCount, 56..60 tilesCount, 60..64 the one tile integer, 64..68
eventsCount, 68..92 the one EventRecord, 92..96 eventsPalCount, 96..120 the
one template EventRecord. -/
def mapDemo : WorldMapFile :=
  { version := 1, settings_count := 0, horizontal_width := 10,
    vertical_width := 10, chunk_width := 8, chunk_pow := 3,
    initial_position_x := 0, initial_position_y := 0,
    background_index := 0, use_background := 0, strings_count := 2,
    name := sEmpty, bg_path := sEmpty,
    tiles_types_count := 0, world_chip_data := [],
    tiles_count := 1, map_chip_data := [7],
    events_count := 0, event_data := [evDemo],
    events_pal_count := 0, event_template_data := [evDemo] }

/-- The 68-byte buffer of spec §8's end-to-end example: version=1,
settingsCount=0, horizontalWidth=10, verticalWidth=10, chunkWidth=8,
chunkPow=3, initialPositionX=0, initialPositionY=0, backgroundIndex=0,
useBackground=0, stringsCount=2, two empty StringFields, then
tilesTypesCount=0, tilesCount=0, eventsCount=0, eventsPalCount=0. -/
def bufEmpty : List Byte :=
  [1,0,0,0, 0,0,0,0, 10,0,0,0, 10,0,0,0, 8,0,0,0,
   3,0,0,0, 0,0,0,0, 0,0,0,0, 0,0,0,0, 0,0,0,0, 2,0,0,0,
   0,0,0,0, 0,0,0,0, 0,0,0,0, 0,0,0,0, 0,0,0,0, 0,0,0,0]

/-- The WorldMap value that `bufEmpty` decodes to. -/
def mapEmpty : WorldMapFile :=
  { version := 1, settings_count := 0, horizontal_width := 10,
    vertical_width := 10, chunk_width := 8, chunk_pow := 3,
    initial_position_x := 0, initial_position_y := 0,
    background_index := 0, use_background := 0, strings_count := 2,
    name := sEmpty, bg_path := sEmpty,
    tiles_types_count := 0, world_chip_data := [],
    tiles_count := 0, map_chip_data := [],
    events_count := 0, event_data := [],
    events_pal_count := 0, event_template_data := [] }

/-- 24 bytes: an EventRecord header (7, 8, 9, 1), an empty name, and
`pagesCount = 3` — with no page bytes following. -/
def bufEvent3 : List Byte :=
  [7,0,0,0, 8,0,0,0, 9,0,0,0, 1,0,0,0, 0,0,0,0, 3,0,0,0]

/-- What `bufEvent3` decodes to: `pages_count = 3` yet `pages = []`. -/
def evPages3 : WorldEventBase :=
  { header := 7, placement_x := 8, placement_y := 9, strings_count := 1,
    name := sEmpty, pages_count := 3, pages := [] }

/-- A complete EventPage (72 encoded bytes). -/
def pageDemo : WorldEventPage :=
  { start := 0, event_type := 0, graphic := 0, world_number := 0,
    pass_without_clear := 0, play_after_clear := 0, on_game_clear := 0,
    appearance_condition_world := 1, appearance_condition_variable := 0,
    appearance_condition_constant := 0,
    appearance_condition_comparison_content := 0,
    appearance_condition_total_score := 0, variation_setting_present := 0,
    variation_variable := 0, variation_constant := 0, strings_count := 2,
    world_name := sEmpty, start_stage := sEmpty }

/-- An EventRecord with `pages_count = 3` and exactly 3 complete pages. -/
def ev3 : WorldEventBase :=
  { header := 4, placement_x := 5, placement_y := 6, strings_count := 1,
    name := sEmpty, pages_count := 3, pages := [pageDemo, pageDemo, pageDemo] }

/-!
## Truncations of a valid buffer at top-level field boundaries

`trunc_*` are the prefixes of `encode_map m` that end exactly at a
top-level field boundary strictly before the eventsPalCount field.
-/

/-- `encode_map m` truncated right after the first `k` of the 11 leading
scalar fields (`k = 0`: the empty buffer). -/
def trunc_scalars (m : WorldMapFile) (k : Nat) : List Byte :=
  (((header_scalars m).take k).map encode_u32).flatten

/-- `encode_map m` truncated right after the name StringField. -/
def trunc_after_name (m : WorldMapFile) : List Byte :=
  ((header_scalars m).map encode_u32).flatten ++ encode_string m.name

/-- `encode_map m` truncated right after the bgPath StringField. -/
def trunc_after_bg (m : WorldMapFile) : List Byte :=
  trunc_after_name m ++ encode_string m.bg_path

/-- `encode_map m` truncated right after the `j`-th Chip element
(`j = 0`: right after the tilesTypesCount field). -/
def trunc_chips (m : WorldMapFile) (j : Nat) : List Byte :=
  trunc_after_bg m ++ encode_u32 m.tiles_types_count ++
    ((m.world_chip_data.take j).map encode_chip).flatten

/-- `encode_map m` truncated right after the `j`-th tile integer
(`j = 0`: right after the tilesCount field). -/
def trunc_tiles (m : WorldMapFile) (j : Nat) : List Byte :=
  trunc_chips m m.world_chip_data.length ++ encode_u32 m.tiles_count ++
    ((m.map_chip_data.take j).map encode_u32).flatten

/-- `encode_map m` truncated right after the `j`-th EventRecord of the event
list (`j = 0`: right after the eventsCount field). -/
def trunc_events (m : WorldMapFile) (j : Nat) : List Byte :=
  trunc_tiles m m.map_chip_data.length ++ encode_u32 m.events_count ++
    ((m.event_data.take j).map encode_event).flatten

theorem flatten_map_seg {α : Type} (f : α → List Byte) (l : List α) (j : Nat) :
    ((l.take j).map f).flatten ++ ((l.drop j).map f).flatten =
    (l.map f).flatten := by
  rw [← List.flatten_append, ← List.map_append, List.take_append_drop]

theorem trunc_scalars_front (m : WorldMapFile) (k : Nat) :
    trunc_scalars m k <+: encode_map m := by
  refine ⟨(((header_scalars m).drop k).map encode_u32).flatten ++
    (encode_string m.name ++ (encode_string m.bg_path ++
     (encode_u32 m.tiles_types_count ++
      ((m.world_chip_data.map encode_chip).flatten ++
       (encode_u32 m.tiles_count ++ ((m.map_chip_data.map encode_u32).flatten ++
        (encode_u32 m.events_count ++ ((m.event_data.map encode_event).flatten ++
         (encode_u32 m.events_pal_count ++
          (m.event_template_data.map encode_event).flatten))))))))), ?_⟩
  simp only [trunc_scalars]
  rw [← List.append_assoc, flatten_map_seg]
  simp only [encode_map, List.append_assoc]

theorem trunc_after_name_front (m : WorldMapFile) :
    trunc_after_name m <+: encode_map m := by
  refine ⟨encode_string m.bg_path ++
    (encode_u32 m.tiles_types_count ++
     ((m.world_chip_data.map encode_chip).flatten ++
      (encode_u32 m.tiles_count ++ ((m.map_chip_data.map encode_u32).flatten ++
       (encode_u32 m.events_count ++ ((m.event_data.map encode_event).flatten ++
        (encode_u32 m.events_pal_count ++
         (m.event_template_data.map encode_event).flatten))))))), ?_⟩
  simp only [trunc_after_name, encode_map, List.append_assoc]

theorem trunc_after_bg_front (m : WorldMapFile) :
    trunc_after_bg m <+: encode_map m := by
  refine ⟨encode_u32 m.tiles_types_count ++
    ((m.world_chip_data.map encode_chip).flatten ++
     (encode_u32 m.tiles_count ++ ((m.map_chip_data.map encode_u32).flatten ++
      (encode_u32 m.events_count ++ ((m.event_data.map encode_event).flatten ++
       (encode_u32 m.events_pal_count ++
        (m.event_template_data.map encode_event).flatten)))))), ?_⟩
  simp only [trunc_after_bg, trunc_after_name, encode_map, List.append_assoc]

theorem trunc_chips_front (m : WorldMapFile) (j : Nat) :
    trunc_chips m j <+: encode_map m := by
  refine ⟨((m.world_chip_data.drop j).map encode_chip).flatten ++
    (encode_u32 m.tiles_count ++ ((m.map_chip_data.map encode_u32).flatten ++
     (encode_u32 m.events_count ++ ((m.event_data.map encode_event).flatten ++
      (encode_u32 m.events_pal_count ++
       (m.event_template_data.map encode_event).flatten))))), ?_⟩
  simp only [trunc_chips, trunc_after_bg, trunc_after_name, encode_map,
    List.append_assoc, List.append_cancel_left_eq]
  rw [← List.append_assoc, flatten_map_seg]

theorem trunc_tiles_front (m : WorldMapFile) (j : Nat) :
    trunc_tiles m j <+: encode_map m := by
  refine ⟨((m.map_chip_data.drop j).map encode_u32).flatten ++
    (encode_u32 m.events_count ++ ((m.event_data.map encode_event).flatten ++
     (encode_u32 m.events_pal_count ++
      (m.event_template_data.map encode_event).flatten))), ?_⟩
  simp only [trunc_tiles, trunc_chips, trunc_after_bg, trunc_after_name,
    List.take_length, encode_map, List.append_assoc,
    List.append_cancel_left_eq]
  rw [← List.append_assoc, flatten_map_seg]

theorem trunc_events_front (m : WorldMapFile) (j : Nat) :
    trunc_events m j <+: encode_map m := by
  refine ⟨((m.event_data.drop j).map encode_event).flatten ++
    (encode_u32 m.events_pal_count ++
     (m.event_template_data.map encode_event).flatten), ?_⟩
  simp only [trunc_events, trunc_tiles, trunc_chips, trunc_after_bg,
    trunc_after_name, List.take_length, encode_map, List.append_assoc,
    List.append_cancel_left_eq]
  rw [← List.append_assoc, flatten_map_seg]

theorem WF_map_scalar_bounds (m : WorldMapFile)
    (hsc : ∀ n ∈ header_scalars m, n < 2 ^ 32) :
    m.version < 2 ^ 32 ∧ m.settings_count < 2 ^ 32 ∧
    m.horizontal_width < 2 ^ 32 ∧ m.vertical_width < 2 ^ 32 ∧
    m.chunk_width < 2 ^ 32 ∧ m.chunk_pow < 2 ^ 32 ∧
    m.initial_position_x < 2 ^ 32 ∧ m.initial_position_y < 2 ^ 32 ∧
    m.background_index < 2 ^ 32 ∧ m.use_background < 2 ^ 32 ∧
    m.strings_count < 2 ^ 32 := by
  refine ⟨?_, ?_, ?_, ?_, ?_, ?_, ?_, ?_, ?_, ?_, ?_⟩ <;>
    exact hsc _ (by simp [header_scalars])

theorem std_string_encode_nil (s : StdString) (hs : WF_string s) :
    std_string (encode_string s) = .ok ([], s) := by
  have h := std_string_encode s hs []
  rwa [List.append_nil] at h

theorem trunc_scalars_fails (m : WorldMapFile) (hm : WF_map m) :
    ∀ k, k ≤ 11 → world_map (trunc_scalars m k) = .error (.eof []) := by
  obtain ⟨hsc, -, -, -, -, -, -, -, -, -, -, -, -, -, -⟩ := hm
  obtain ⟨h1, h2, h3, h4, h5, h6, h7, h8, h9, h10, h11⟩ :=
    WF_map_scalar_bounds m hsc
  intro k hk
  interval_cases k <;>
    simp only [trunc_scalars, header_scalars, List.take_succ_cons,
      List.take_zero, List.map_cons, List.map_nil, List.flatten_cons,
      List.flatten_nil, world_map, le_u32_encode, pbind_ok,
      h1, h2, h3, h4, h5, h6, h7, h8, h9, h10, h11,
      le_u32_nil, std_string_nil, pbind_error]

theorem trunc_after_name_fails (m : WorldMapFile) (hm : WF_map m) :
    world_map (trunc_after_name m) = .error (.eof []) := by
  obtain ⟨hsc, hn, -, -, -, -, -, -, -, -, -, -, -, -, -⟩ := hm
  obtain ⟨h1, h2, h3, h4, h5, h6, h7, h8, h9, h10, h11⟩ :=
    WF_map_scalar_bounds m hsc
  simp only [trunc_after_name, header_scalars, List.map_cons, List.map_nil,
    List.flatten_cons, List.flatten_nil, List.append_assoc, List.nil_append,
    world_map, le_u32_encode, std_string_encode_nil m.name hn, pbind_ok,
    h1, h2, h3, h4, h5, h6, h7, h8, h9, h10, h11, std_string_nil, pbind_error]

theorem trunc_after_bg_fails (m : WorldMapFile) (hm : WF_map m) :
    world_map (trunc_after_bg m) = .error (.eof []) := by
  obtain ⟨hsc, hn, hb, -, -, -, -, -, -, -, -, -, -, -, -⟩ := hm
  obtain ⟨h1, h2, h3, h4, h5, h6, h7, h8, h9, h10, h11⟩ :=
    WF_map_scalar_bounds m hsc
  simp only [trunc_after_bg, trunc_after_name, header_scalars, List.map_cons,
    List.map_nil, List.flatten_cons, List.flatten_nil, List.append_assoc,
    List.nil_append, world_map, le_u32_encode, std_string_encode m.name hn,
    std_string_encode_nil m.bg_path hb, pbind_ok,
    h1, h2, h3, h4, h5, h6, h7, h8, h9, h10, h11, le_u32_nil, pbind_error]

theorem trunc_chips_fails (m : WorldMapFile) (hm : WF_map m) (j : Nat)
    (hj : j ≤ m.world_chip_data.length) :
    world_map (trunc_chips m j) = .error (.eof []) := by
  obtain ⟨hsc, hn, hb, httc, hclen, hcall, -, -, -, -, -, -, -, -, -⟩ := hm
  obtain ⟨h1, h2, h3, h4, h5, h6, h7, h8, h9, h10, h11⟩ :=
    WF_map_scalar_bounds m hsc
  have hmany : many_m_n 0 m.tiles_types_count world_chip
      (((m.world_chip_data.take j).map encode_chip).flatten) =
      .ok ([], m.world_chip_data.take j) :=
    many_m_n_encode_trunc world_chip encode_chip WF_chip
      (fun x rr hx => world_chip_encode x hx rr) (fun x _ => encode_chip_ne x)
      world_chip_nil (m.world_chip_data.take j) m.tiles_types_count
      (by rw [List.length_take]; omega)
      (fun x hx => hcall x (List.take_subset j m.world_chip_data hx))
  simp only [trunc_chips, trunc_after_bg, trunc_after_name, header_scalars,
    List.map_cons, List.map_nil, List.flatten_cons, List.flatten_nil,
    List.append_assoc, List.nil_append, world_map, le_u32_encode,
    std_string_encode m.name hn, std_string_encode m.bg_path hb,
    unwrap_usize_lt, pbind_ok,
    h1, h2, h3, h4, h5, h6, h7, h8, h9, h10, h11, httc, hmany,
    le_u32_nil, pbind_error]

theorem trunc_tiles_fails (m : WorldMapFile) (hm : WF_map m) (j : Nat)
    (hj : j ≤ m.map_chip_data.length) :
    world_map (trunc_tiles m j) = .error (.eof []) := by
  obtain ⟨hsc, hn, hb, httc, hclen, hcall, htc, hmlen, hmall, -, -, -, -, -, -⟩ := hm
  obtain ⟨h1, h2, h3, h4, h5, h6, h7, h8, h9, h10, h11⟩ :=
    WF_map_scalar_bounds m hsc
  have hchips : ∀ r' : List Byte, many_m_n 0 m.tiles_types_count world_chip
      ((m.world_chip_data.map encode_chip).flatten ++ r') =
      .ok (r', m.world_chip_data) := by
    intro r'
    rw [← hclen]
    exact many_m_n_encode world_chip encode_chip WF_chip
      (fun x rr hx => world_chip_encode x hx rr) (fun x _ => encode_chip_ne x)
      m.world_chip_data r' hcall
  have hmany : many_m_n 0 m.tiles_count le_u32
      (((m.map_chip_data.take j).map encode_u32).flatten) =
      .ok ([], m.map_chip_data.take j) :=
    many_m_n_encode_trunc le_u32 encode_u32 (fun n => n < 2 ^ 32)
      (fun x rr hx => le_u32_encode x rr hx) (fun x _ => encode_u32_ne x)
      le_u32_nil (m.map_chip_data.take j) m.tiles_count
      (by rw [List.length_take]; omega)
      (fun x hx => hmall x (List.take_subset j m.map_chip_data hx))
  simp only [trunc_tiles, trunc_chips, trunc_after_bg, trunc_after_name,
    List.take_length, header_scalars,
    List.map_cons, List.map_nil, List.flatten_cons, List.flatten_nil,
    List.append_assoc, List.nil_append, world_map, le_u32_encode,
    std_string_encode m.name hn, std_string_encode m.bg_path hb,
    unwrap_usize_lt, pbind_ok,
    h1, h2, h3, h4, h5, h6, h7, h8, h9, h10, h11, httc, htc,
    hchips, hmany, le_u32_nil, pbind_error]

theorem trunc_events_fails (m : WorldMapFile) (hm : WF_map m) (j : Nat)
    (hj : j ≤ m.event_data.length) :
    world_map (trunc_events m j) = .error (.eof []) := by
  obtain ⟨hsc, hn, hb, httc, hclen, hcall, htc, hmlen, hmall, hec, helen,
    heall, -, -, -⟩ := hm
  obtain ⟨h1, h2, h3, h4, h5, h6, h7, h8, h9, h10, h11⟩ :=
    WF_map_scalar_bounds m hsc
  have hchips : ∀ r' : List Byte, many_m_n 0 m.tiles_types_count world_chip
      ((m.world_chip_data.map encode_chip).flatten ++ r') =
      .ok (r', m.world_chip_data) := by
    intro r'
    rw [← hclen]
    exact many_m_n_encode world_chip encode_chip WF_chip
      (fun x rr hx => world_chip_encode x hx rr) (fun x _ => encode_chip_ne x)
      m.world_chip_data r' hcall
  have htiles : ∀ r' : List Byte, many_m_n 0 m.tiles_count le_u32
      ((m.map_chip_data.map encode_u32).flatten ++ r') =
      .ok (r', m.map_chip_data) := by
    intro r'
    rw [← hmlen]
    exact many_m_n_encode le_u32 encode_u32 (fun n => n < 2 ^ 32)
      (fun x rr hx => le_u32_encode x rr hx) (fun x _ => encode_u32_ne x)
      m.map_chip_data r' hmall
  have hmany : many_m_n 0 m.tiles_count world_event_base
      (((m.event_data.take j).map encode_event).flatten) =
      .ok ([], m.event_data.take j) :=
    many_m_n_encode_trunc world_event_base encode_event WF_event
      (fun x rr hx => world_event_base_encode x hx rr)
      (fun x _ => encode_event_ne x)
      world_event_base_nil (m.event_data.take j) m.tiles_count
      (by rw [List.length_take]; omega)
      (fun x hx => heall x (List.take_subset j m.event_data hx))
  simp only [trunc_events, trunc_tiles, trunc_chips, trunc_after_bg,
    trunc_after_name, List.take_length, header_scalars,
    List.map_cons, List.map_nil, List.flatten_cons, List.flatten_nil,
    List.append_assoc, List.nil_append, world_map, le_u32_encode,
    std_string_encode m.name hn, std_string_encode m.bg_path hb,
    unwrap_usize_lt, pbind_ok,
    h1, h2, h3, h4, h5, h6, h7, h8, h9, h10, h11, httc, htc, hec,
    hchips, htiles, hmany, le_u32_nil, pbind_error]

/-!
## Claim theorems
-/

/-- C1 counterexample: `mapDemo` is well formed and its 120-byte buffer
`encode_map mapDemo` decodes fully; yet truncating that valid buffer at the
field boundary at offset 96 (the start of the template EventRecord, right
after eventsPalCount) and at the field boundary at offset 100 (inside the
template EventRecord, right after its header field) both yield a
SUCCESSFUL decode — a WorldMap value is returned — instead of failing with
InsufficientData at the truncation offset. -/
theorem C1_counterexample :
    WF_map mapDemo ∧
    world_map (encode_map mapDemo) = .ok ([], mapDemo) ∧
    pIsOk (world_map ((encode_map mapDemo).take 96)) = true ∧
    pIsOk (world_map ((encode_map mapDemo).take 100)) = true :=
  ⟨by decide, by decide, by decide, by decide⟩

/-- C1 (amended): truncating a valid buffer (`encode_map m` of a well-formed
`m`) at a top-level field boundary strictly before the eventsPalCount field —
after any of the 11 leading scalars, after either StringField, after
tilesTypesCount and any whole Chip element, after tilesCount and any whole
tile integer, or after eventsCount and any whole EventRecord of the event
list — makes decoding fail with the InsufficientData error carrying empty
remaining input, i.e. at exactly the truncation offset, and no WorldMap
value is returned.  (Each truncated buffer is shown to be a prefix of
`encode_map m`.)  Truncation at or after the eventsPalCount boundary, or at
a boundary strictly inside a repeated element, can instead succeed — see the
counterexample. -/
theorem C1_truncation_amended (m : WorldMapFile) (hm : WF_map m) :
    (∀ k, k ≤ 11 → trunc_scalars m k <+: encode_map m ∧
      world_map (trunc_scalars m k) = .error (.eof [])) ∧
    (trunc_after_name m <+: encode_map m ∧
      world_map (trunc_after_name m) = .error (.eof [])) ∧
    (trunc_after_bg m <+: encode_map m ∧
      world_map (trunc_after_bg m) = .error (.eof [])) ∧
    (∀ j, j ≤ m.world_chip_data.length → trunc_chips m j <+: encode_map m ∧
      world_map (trunc_chips m j) = .error (.eof [])) ∧
    (∀ j, j ≤ m.map_chip_data.length → trunc_tiles m j <+: encode_map m ∧
      world_map (trunc_tiles m j) = .error (.eof [])) ∧
    (∀ j, j ≤ m.event_data.length → trunc_events m j <+: encode_map m ∧
      world_map (trunc_events m j) = .error (.eof [])) :=
  ⟨fun k hk => ⟨trunc_scalars_front m k, trunc_scalars_fails m hm k hk⟩,
   ⟨trunc_after_name_front m, trunc_after_name_fails m hm⟩,
   ⟨trunc_after_bg_front m, trunc_after_bg_fails m hm⟩,
   fun j hj => ⟨trunc_chips_front m j, trunc_chips_fails m hm j hj⟩,
   fun j hj => ⟨trunc_tiles_front m j, trunc_tiles_fails m hm j hj⟩,
   fun j hj => ⟨trunc_events_front m j, trunc_events_fails m hm j hj⟩⟩

/-- C1 witness: the amended theorem applied to the concrete `mapDemo` at the
boundary right after its single event record (just before eventsPalCount). -/
theorem C1_witness :
    trunc_events mapDemo 1 <+: encode_map mapDemo ∧
    world_map (trunc_events mapDemo 1) = .error (.eof []) :=
  (C1_truncation_amended mapDemo (by decide)).2.2.2.2.2 1 (by decide)

/-- C2 counterexample: `bufEvent3` encodes an EventRecord header, an empty
name and `pagesCount = 3`, with NO page bytes following; the EventRecord
decoder nevertheless succeeds, and the resulting pages list has 0 elements,
not pagesCount = 3. -/
theorem C2_counterexample :
    world_event_base bufEvent3 = .ok ([], evPages3) ∧
    evPages3.pages_count = 3 ∧ evPages3.pages.length = 0 :=
  ⟨by decide, rfl, rfl⟩

/-- C2 (amended): on every input where the EventRecord decoder succeeds the
pages list has AT MOST pagesCount elements (the `many_m_n` repetition with
`min = 0` stops early when a page fails to parse); when the name field is
followed by pagesCount complete encoded pages, exactly pagesCount pages are
decoded, in declared order — in particular the concrete `ev3` with
`pagesCount = 3` and 3 complete pages decodes back with exactly 3 pages. -/
theorem C2_pages_amended :
    (∀ input rest e, world_event_base input = .ok (rest, e) →
      e.pages.length ≤ e.pages_count) ∧
    (∀ e r, WF_event e → world_event_base (encode_event e ++ r) = .ok (r, e)) ∧
    (world_event_base (encode_event ev3) = .ok ([], ev3) ∧
      ev3.pages_count = 3 ∧ ev3.pages.length = 3) :=
  ⟨world_event_base_pages_le,
   fun e r he => world_event_base_encode e he r,
   by have h := world_event_base_encode ev3 (by decide) []
      rwa [List.append_nil] at h,
   rfl, rfl⟩

/-- C2 witness: the amended theorem applied at `bufEvent3` and at the
encoding of the page-free `evDemo`. -/
theorem C2_witness :
    evPages3.pages.length ≤ evPages3.pages_count ∧
    world_event_base (encode_event evDemo ++ []) = .ok ([], evDemo) :=
  ⟨C2_pages_amended.1 bufEvent3 [] evPages3 (by decide),
   C2_pages_amended.2.1 evDemo [] (by decide)⟩

/-- C3: in the top-level WorldMap decoder the repeat bound of both the
eventData and the eventTemplateData list is the previously decoded
tilesCount (`src/main.rs` lines 224-231): on every successful decode both
list lengths are bounded by `tiles_count`; and the concrete `mapDemo`, whose
`events_count` and `events_pal_count` are both 0 while `tiles_count = 1`,
decodes with one event and one template — so the locally read
eventsCount/eventsPalCount values are stored but do not govern the
repetition. -/
theorem C3_repeat_bound_is_tiles_count :
    (∀ input rest m, world_map input = .ok (rest, m) →
      m.event_data.length ≤ m.tiles_count ∧
      m.event_template_data.length ≤ m.tiles_count) ∧
    (world_map (encode_map mapDemo) = .ok ([], mapDemo) ∧
      mapDemo.events_count = 0 ∧ mapDemo.events_pal_count = 0 ∧
      mapDemo.tiles_count = 1 ∧ mapDemo.event_data.length = 1 ∧
      mapDemo.event_template_data.length = 1) :=
  ⟨fun input rest m h =>
    ⟨(world_map_bounds input rest m h).2.2.1,
     (world_map_bounds input rest m h).2.2.2⟩,
   by decide, rfl, rfl, rfl, rfl, rfl⟩

/-- C3 witness: the bound part applied to the concrete decode of
`encode_map mapDemo`. -/
theorem C3_witness :
    mapDemo.event_data.length ≤ mapDemo.tiles_count ∧
    mapDemo.event_template_data.length ≤ mapDemo.tiles_count :=
  C3_repeat_bound_is_tiles_count.1 (encode_map mapDemo) [] mapDemo (by decide)

/-- C4: the StringField decoder first reads one little-endian u32 `length`;
whenever that read succeeds leaving remaining input `r`: if `length` is 0
or 1 it consumes nothing further and yields an empty payload, independent of
`r`; if `length ≥ 2` it consumes and yields exactly the first `length` bytes
of `r` verbatim when they exist and fails with InsufficientData otherwise;
the declared `length` is stored unmodified in every success. -/
theorem C4_stringfield_decoder (input r : List Byte) (L : Nat)
    (h : le_u32 input = .ok (r, L)) :
    (L ≤ 1 → std_string input = .ok (r, { length := L, data := [] })) ∧
    (2 ≤ L → (L ≤ r.length →
        std_string input = .ok (r.drop L, { length := L, data := r.take L })) ∧
      (r.length < L → std_string input = .error (.eof r))) := by
  refine ⟨fun hL => ?_, fun hL => ⟨fun hlen => ?_, fun hlen => ?_⟩⟩
  · have h0 : take_bytes 0 r = .ok (r, []) := by
      unfold take_bytes
      rw [if_pos (by omega)]
      simp
    simp only [std_string, h, pbind_ok, if_neg (by omega : ¬L > 1), h0]
  · have h0 : take_bytes L r = .ok (r.drop L, r.take L) := by
      unfold take_bytes
      rw [if_pos hlen]
    simp only [std_string, h, pbind_ok, if_pos (by omega : L > 1), h0]
  · have h0 : take_bytes L r = .error (.eof r) := by
      unfold take_bytes
      rw [if_neg (by omega)]
    simp only [std_string, h, pbind_ok, if_pos (by omega : L > 1), h0,
      pbind_error]

/-- C4 witness: the three behaviors at concrete inputs — length 0 consuming
nothing, length 2 consuming exactly 2 bytes verbatim, and length 5 failing
on a 3-byte remainder. -/
theorem C4_witness :
    std_string [0, 0, 0, 0, 55] = .ok ([55], { length := 0, data := [] }) ∧
    std_string [2, 0, 0, 0, 55, 66, 77] =
      .ok ([77], { length := 2, data := [55, 66] }) ∧
    std_string [5, 0, 0, 0, 55, 66, 77] = .error (.eof [55, 66, 77]) :=
  ⟨(C4_stringfield_decoder [0, 0, 0, 0, 55] [55] 0 (by decide)).1 (by decide),
   ((C4_stringfield_decoder [2, 0, 0, 0, 55, 66, 77] [55, 66, 77] 2
      (by decide)).2 (by decide)).1 (by decide),
   ((C4_stringfield_decoder [5, 0, 0, 0, 55, 66, 77] [55, 66, 77] 5
      (by decide)).2 (by decide)).2 (by decide)⟩

/-- C5: round trip — for every well-formed WorldMap value `m` (fields within
32 bits, StringField invariant, each list exactly as long as the count the
decoder repeats it by), decoding the buffer built by concatenating its
fields in the declared order succeeds, consumes exactly that buffer, and
returns every field equal to the source value. -/
theorem C5_round_trip (m : WorldMapFile) (hm : WF_map m) (r : List Byte) :
    world_map (encode_map m ++ r) = .ok (r, m) :=
  world_map_encode m hm r

/-- C5 witness: the round trip at the concrete `mapDemo`. -/
theorem C5_witness : world_map (encode_map mapDemo ++ []) = .ok ([], mapDemo) :=
  C5_round_trip mapDemo (by decide) []

/-- C6: on every successful decode in which the decoded tilesTypesCount and
tilesCount are both 0, all four repeated lists are empty (the two event
lists because their repeat bound is tilesCount); and the concrete 68-byte
buffer `bufEmpty` — version=1, settingsCount=0, horizontalWidth=10,
verticalWidth=10, chunkWidth=8, chunkPow=3, initialPositionX=0,
initialPositionY=0, backgroundIndex=0, useBackground=0, stringsCount=2, two
empty StringFields, and all four counts 0 — decodes to exactly `mapEmpty`,
whose four lists are all empty, consuming the whole buffer. -/
theorem C6_zero_counts :
    (∀ input rest m, world_map input = .ok (rest, m) →
      m.tiles_types_count = 0 → m.tiles_count = 0 →
      m.world_chip_data = [] ∧ m.map_chip_data = [] ∧
      m.event_data = [] ∧ m.event_template_data = []) ∧
    world_map bufEmpty = .ok ([], mapEmpty) := by
  constructor
  · intro input rest m h h0 h0'
    obtain ⟨b1, b2, b3, b4⟩ := world_map_bounds input rest m h
    rw [h0] at b1
    rw [h0'] at b2 b3 b4
    exact ⟨List.length_eq_zero.mp (by omega),
           List.length_eq_zero.mp (by omega),
           List.length_eq_zero.mp (by omega),
           List.length_eq_zero.mp (by omega)⟩
  · decide

/-- C6 witness: the general part applied to the concrete decode of
`bufEmpty`, whose counts are 0. -/
theorem C6_witness :
    mapEmpty.world_chip_data = [] ∧ mapEmpty.map_chip_data = [] ∧
    mapEmpty.event_data = [] ∧ mapEmpty.event_template_data = [] :=
  C6_zero_counts.1 bufEmpty [] mapEmpty (by decide) rfl rfl

/-- C7: the WorldMap decoder is a total function of the input buffer — it is
defined by structural recursion (every bounded repetition recurses on the
decreasing iteration budget taken from a previously decoded count), so it
terminates on every finite input, returning either a decode error or a
complete WorldMap value together with the remaining input, which is always a
suffix of the input (single forward pass). -/
theorem C7_total_single_pass :
    ∀ input : List Byte, (∃ e, world_map input = .error e) ∨
      ∃ rest m, world_map input = .ok (rest, m) ∧ rest <:+ input := by
  intro input
  cases h : world_map input with
  | error e => exact .inl ⟨e, rfl⟩
  | ok v =>
    obtain ⟨r, m⟩ := v
    exact .inr ⟨r, m, rfl, world_map_suffix input r m h⟩

/-- C8: forward-only consumption — for each of the five decoders, on every
input on which it succeeds, the remaining input it returns is a suffix of
the input it was given: the read position only advances, by exactly the
number of bytes consumed, and never exceeds the buffer or moves backward. -/
theorem C8_forward_only :
    (∀ input rest v, std_string input = .ok (rest, v) → rest <:+ input) ∧
    (∀ input rest v, world_chip input = .ok (rest, v) → rest <:+ input) ∧
    (∀ input rest v, world_event_page input = .ok (rest, v) → rest <:+ input) ∧
    (∀ input rest v, world_event_base input = .ok (rest, v) → rest <:+ input) ∧
    (∀ input rest v, world_map input = .ok (rest, v) → rest <:+ input) :=
  ⟨std_string_suffix, world_chip_suffix, world_event_page_suffix,
   world_event_base_suffix, world_map_suffix⟩

/-- C8 witness: the WorldMap conjunct applied to the concrete decode of
`bufEmpty`, whose remaining input `[]` is a suffix of it. -/
theorem C8_witness : ([] : List Byte) <:+ bufEmpty :=
  C8_forward_only.2.2.2.2 bufEmpty [] mapEmpty (by decide)

/-- C9: each repeated list is bounded by (not necessarily equal to) its
governing count — pages by pagesCount, worldChipData by tilesTypesCount,
mapChipData by tilesCount, and both event lists by tilesCount; and when an
element of a `min = 0` repetition fails to parse (with anything but a
panic), the repetition stops and returns the elements accumulated so far
instead of failing — at the first element: the empty list with the input
unmoved. -/
theorem C9_bounded_lists :
    (∀ input rest e, world_event_base input = .ok (rest, e) →
      e.pages.length ≤ e.pages_count) ∧
    (∀ input rest m, world_map input = .ok (rest, m) →
      m.world_chip_data.length ≤ m.tiles_types_count ∧
      m.map_chip_data.length ≤ m.tiles_count ∧
      m.event_data.length ≤ m.tiles_count ∧
      m.event_template_data.length ≤ m.tiles_count) ∧
    (∀ (α : Type) (p : List Byte → PResult α) (maxC : Nat)
      (input : List Byte) (e : PError), p input = .error e →
      e ≠ .panicked → many_m_n 0 maxC p input = .ok (input, [])) :=
  ⟨world_event_base_pages_le, world_map_bounds,
   fun _ p maxC input e hp hnp => many_m_n_swallow maxC p input e hp hnp⟩

/-- C9 witness: the pages bound at the concrete `bufEvent3` decode and the
element-failure behavior of the repetition at the empty input. -/
theorem C9_witness :
    evPages3.pages.length ≤ evPages3.pages_count ∧
    many_m_n 0 5 world_event_page [] = .ok ([], []) :=
  ⟨C9_bounded_lists.1 bufEvent3 [] evPages3 (by decide),
   C9_bounded_lists.2.2 WorldEventPage world_event_page 5 [] (.eof [])
     (by decide) (by decide)⟩

/-- C10: the decoder never panics — for every input byte buffer neither the
WorldMap decoder nor the EventRecord decoder ever produces the modelled
panic outcome, because every count fed to a `try_into().unwrap()` site was
read from 4 bytes and is therefore below 2^32, which fits a 64-bit usize;
the only failure mode is the returned parse error. -/
theorem C10_no_panic :
    (∀ input : List Byte, pIsPanic (world_map input) = false) ∧
    (∀ input : List Byte, pIsPanic (world_event_base input) = false) := by
  refine ⟨fun input => ?_, fun input => ?_⟩
  · cases h : world_map input with
    | ok v => rfl
    | error e =>
      cases e with
      | eof r => rfl
      | manyMN r => rfl
      | panicked => exact absurd rfl (world_map_np input .panicked h)
  · cases h : world_event_base input with
    | ok v => rfl
    | error e =>
      cases e with
      | eof r => rfl
      | manyMN r => rfl
      | panicked => exact absurd rfl (world_event_base_np input .panicked h)
